import Mathlib

/-!
Shallow embedding of the authentication / user-management core of the
cvs-central-cluster-server backend (TypeScript/Express/Mongoose), together
with theorems checking the natural-language specification against it.

Modelling conventions:
* a Mongo collection is a `List` of records; `findOne` is `List.find?`,
  `save` writes back by `_id` (`saveUser`);
* bcrypt is an abstract pair of functions (`Bcrypt`); random tokens,
  fresh object ids and the current time are explicit parameters;
* `jwt.sign(payload, secret, { expiresIn: "1d" })` is modelled as a record
  holding the payload and the expiry string;
* a thrown `Error(msg)` is `Except.error msg`; a successful operation
  returns the result together with the updated collection.
-/

namespace CvsCentral

/-- Abstract bcryptjs: `hash` covers `genSalt`+`hash`, `compare` is
`bcrypt.compare`. -/
structure Bcrypt where
  hash : String → String
  compare : String → String → Bool

/-- The `User` document of `models/secondary/User.ts` (timestamps omitted);
`_id` is modelled as a `Nat`. -/
structure UserRec where
  id : Nat
  email : String
  name : String
  picture : Option String
  provider : String
  providerId : Option String
  password : Option String
  role : String
  isAdmin : Bool
  isVerified : Bool
  verificationToken : Option String
  resetPasswordToken : Option String
  resetPasswordExpires : Option Nat
  deriving Repr, DecidableEq

abbrev Store := List UserRec

/-- `User.findOne({ email })`. -/
def findByEmail (store : Store) (email : String) : Option UserRec :=
  store.find? (fun u => u.email == email)

/-- `User.findById(id)`. -/
def findById (store : Store) (i : Nat) : Option UserRec :=
  store.find? (fun u => u.id == i)

/-- `user.save()`: write the record back over the document with the same
`_id`. -/
def saveUser (store : Store) (u : UserRec) : Store :=
  store.map (fun v => if v.id == u.id then u else v)

/-- The claim set put into a session token (`TokenPayload` in
`services/userService.ts`). -/
structure TokenPayload where
  userId : Nat
  email : String
  role : String
  isAdmin : Bool
  deriving Repr, DecidableEq

/-- A signed JWT: the payload plus the `expiresIn` option it was signed
with. -/
structure SignedToken where
  payload : TokenPayload
  expiresIn : String
  deriving Repr, DecidableEq

/-- `jwt.sign(payload, secret, { expiresIn: "1d" })`. -/
def jwtSign (p : TokenPayload) : SignedToken :=
  { payload := p, expiresIn := "1d" }

/-- The payload built for login / OAuth login:
`{ userId, email, role, isAdmin }`. -/
def tokenPayloadOf (u : UserRec) : TokenPayload :=
  { userId := u.id, email := u.email, role := u.role, isAdmin := u.isAdmin }

/-- `UserRegistrationData` of `services/userService.ts`. -/
structure UserRegistrationData where
  email : String
  name : String
  password : String
  picture : Option String
  deriving Repr, DecidableEq

/-- `UserService.register`: reject a duplicate email, hash the password,
generate a verification token, create a `local`, unverified user. The
random token and the fresh `_id` are passed in explicitly. -/
def register (bc : Bcrypt) (verificationToken : String) (freshId : Nat)
    (store : Store) (userData : UserRegistrationData) :
    Except String (UserRec × Store) :=
  match findByEmail store userData.email with
  | some _ => .error "Email already in use"
  | none =>
    let user : UserRec :=
      { id := freshId
        email := userData.email
        name := userData.name
        picture := userData.picture
        provider := "local"
        providerId := none
        password := some (bc.hash userData.password)
        role := "user"
        isAdmin := false
        isVerified := false
        verificationToken := some verificationToken
        resetPasswordToken := none
        resetPasswordExpires := none }
    .ok (user, store ++ [user])

/-- `UserService.login`: the check cascade of `services/userService.ts`
lines 72-140, in source order. -/
def login (bc : Bcrypt) (store : Store) (email password : String) :
    Except String (UserRec × SignedToken) :=
  match findByEmail store email with
  | none => .error "Invalid credentials"
  | some user =>
    if user.provider ≠ "local" then
      .error ("Please login using your " ++ user.provider ++ " account")
    else
      match user.password with
      | none => .error "Invalid credentials"
      | some hashed =>
        if ¬ bc.compare password hashed then
          .error "Invalid credentials"
        else if ¬ user.isVerified then
          .error "Please verify your email before logging in"
        else
          .ok (user, jwtSign (tokenPayloadOf user))

/-- `UserService.verifyEmail`: look up by verification token, mark
verified, clear the token. -/
def verifyEmail (store : Store) (token : String) :
    Except String (UserRec × Store) :=
  match store.find? (fun u => u.verificationToken == some token) with
  | none => .error "Invalid verification token"
  | some user =>
    let user' := { user with isVerified := true, verificationToken := none }
    .ok (user', saveUser store user')

/-- `UserService.requestPasswordReset`: store a reset token with expiry
`now + 3600000` ms (one hour). The random token is passed in. -/
def requestPasswordReset (resetToken : String) (now : Nat) (store : Store)
    (email : String) : Except String (UserRec × String × Store) :=
  match findByEmail store email with
  | none => .error "User not found"
  | some user =>
    let user' := { user with
                   resetPasswordToken := some resetToken
                   resetPasswordExpires := some (now + 3600000) }
    .ok (user', resetToken, saveUser store user')

/-- The Mongo query
`{ resetPasswordToken: token, resetPasswordExpires: { $gt: Date.now() } }`
as a predicate on one document. -/
def resetMatches (token : String) (now : Nat) (u : UserRec) : Bool :=
  u.resetPasswordToken == some token &&
    match u.resetPasswordExpires with
    | some e => now < e
    | none => false

/-- `UserService.resetPassword`: find a user by unexpired reset token, hash
and store the new password, clear both reset fields. -/
def resetPassword (bc : Bcrypt) (token newPassword : String) (now : Nat)
    (store : Store) : Except String (UserRec × Store) :=
  match store.find? (resetMatches token now) with
  | none => .error "Invalid or expired reset token"
  | some user =>
    let user' := { user with
                   password := some (bc.hash newPassword)
                   resetPasswordToken := none
                   resetPasswordExpires := none }
    .ok (user', saveUser store user')

/-- The `"google" | "github"` union type of `oauthLogin`. -/
inductive OAuthProvider
  | google
  | github
  deriving Repr, DecidableEq

def OAuthProvider.str : OAuthProvider → String
  | .google => "google"
  | .github => "github"

/-- The provider profile fields `oauthLogin` reads
(`profile.email`, `profile.id`, `profile.name`, `profile.picture`). -/
structure OAuthProfile where
  email : String
  id : String
  name : String
  picture : Option String
  deriving Repr, DecidableEq

/-- `UserService.oauthLogin` (`services/userService.ts` lines 370-452):
look up by email; migrate an unverified local account; reject any other
provider mismatch; create the user when absent; sign a token. -/
def oauthLogin (freshId : Nat) (store : Store) (profile : OAuthProfile)
    (provider : OAuthProvider) :
    Except String (UserRec × SignedToken × Store) :=
  match findByEmail store profile.email with
  | some user =>
    if user.provider ≠ provider.str then
      if user.provider = "local" ∧ user.isVerified = false then
        let user' := { user with
                       provider := provider.str
                       providerId := some profile.id
                       isVerified := true
                       verificationToken := none }
        .ok (user', jwtSign (tokenPayloadOf user'), saveUser store user')
      else
        .error ("You already have an account with " ++ user.provider ++
          ". Please sign in with that provider.")
    else
      .ok (user, jwtSign (tokenPayloadOf user), store)
  | none =>
    let user : UserRec :=
      { id := freshId
        email := profile.email
        name := profile.name
        picture := profile.picture
        provider := provider.str
        providerId := some profile.id
        password := none
        role := "user"
        isAdmin := false
        isVerified := true
        verificationToken := none
        resetPasswordToken := none
        resetPasswordExpires := none }
    .ok (user, jwtSign (tokenPayloadOf user), store ++ [user])

/-- `UserService.setPasswordForOAuthUser`: one-time password set, rejected
when a hash already exists. -/
def setPasswordForOAuthUser (bc : Bcrypt) (store : Store) (userId : Nat)
    (password : String) : Except String (UserRec × Store) :=
  match findById store userId with
  | none => .error "User not found"
  | some user =>
    match user.password with
    | some _ => .error "User already has a password"
    | none =>
      let user' := { user with password := some (bc.hash password) }
      .ok (user', saveUser store user')

/-- One key/value pair of the `Partial<IUser>` update payload taken by
`updateProfile`; each constructor is one assignable `IUser` key together
with the (defined) value supplied for it. -/
inductive UserUpd
  | uemail (v : String)
  | uname (v : String)
  | upicture (v : Option String)
  | uprovider (v : String)
  | uproviderId (v : Option String)
  | upassword (v : Option String)
  | urole (v : String)
  | uisAdmin (v : Bool)
  | uisVerified (v : Bool)
  | uverificationToken (v : Option String)
  | uresetPasswordToken (v : Option String)
  | uresetPasswordExpires (v : Option Nat)
  deriving Repr, DecidableEq

/-- The JavaScript key name of an update entry (`Object.keys`). -/
def UserUpd.key : UserUpd → String
  | .uemail _ => "email"
  | .uname _ => "name"
  | .upicture _ => "picture"
  | .uprovider _ => "provider"
  | .uproviderId _ => "providerId"
  | .upassword _ => "password"
  | .urole _ => "role"
  | .uisAdmin _ => "isAdmin"
  | .uisVerified _ => "isVerified"
  | .uverificationToken _ => "verificationToken"
  | .uresetPasswordToken _ => "resetPasswordToken"
  | .uresetPasswordExpires _ => "resetPasswordExpires"

/-- Assignment `updates[key] = updateData[key]` applied to the record
(the effect of the later `$set`). -/
def UserUpd.apply (u : UserRec) : UserUpd → UserRec
  | .uemail v => { u with email := v }
  | .uname v => { u with name := v }
  | .upicture v => { u with picture := v }
  | .uprovider v => { u with provider := v }
  | .uproviderId v => { u with providerId := v }
  | .upassword v => { u with password := v }
  | .urole v => { u with role := v }
  | .uisAdmin v => { u with isAdmin := v }
  | .uisVerified v => { u with isVerified := v }
  | .uverificationToken v => { u with verificationToken := v }
  | .uresetPasswordToken v => { u with resetPasswordToken := v }
  | .uresetPasswordExpires v => { u with resetPasswordExpires := v }

/-- The allow-list `const allowedUpdates = ["name", "picture"]`. -/
def allowedUpdates : List String := ["name", "picture"]

/-- `UserService.updateProfile`: keep only allow-listed keys of the payload
and `$set` them on the user found by id. -/
def updateProfile (store : Store) (userId : Nat)
    (updateData : List UserUpd) : Except String (UserRec × Store) :=
  let updates := updateData.filter (fun k => allowedUpdates.contains k.key)
  match findById store userId with
  | none => .error "User not found"
  | some user =>
    let user' := updates.foldl UserUpd.apply user
    .ok (user', saveUser store user')

/-- The `Testimonial` document of `models/secondary/Testimonial.ts`
(timestamps omitted); `user` is the owning user's id. -/
structure TestimonialRec where
  id : Nat
  user : Nat
  name : String
  avatar : Option String
  content : String
  rating : Nat
  isApproved : Bool
  position : Option String
  company : Option String
  deriving Repr, DecidableEq

/-- One key/value pair of the `Partial<TestimonialInput>` update payload of
`updateTestimonial`. -/
inductive TUpd
  | tname (v : String)
  | tcontent (v : String)
  | trating (v : Nat)
  | tavatar (v : Option String)
  | tisApproved (v : Bool)
  | tposition (v : Option String)
  | tcompany (v : Option String)
  | tplatform (v : Option String)
  deriving Repr, DecidableEq

/-- The JavaScript key name of a testimonial update entry. -/
def TUpd.key : TUpd → String
  | .tname _ => "name"
  | .tcontent _ => "content"
  | .trating _ => "rating"
  | .tavatar _ => "avatar"
  | .tisApproved _ => "isApproved"
  | .tposition _ => "position"
  | .tcompany _ => "company"
  | .tplatform _ => "platform"

/-- The schema paths of the `Testimonial` model: exactly the keys for which
the dynamic `key in testimonial` check succeeds. `platform` is accepted by
the input type but is not a schema path. -/
def testimonialSchemaKeys : List String :=
  ["_id", "user", "name", "avatar", "content", "rating", "isApproved",
   "position", "company", "createdAt", "updatedAt"]

/-- One step of the dynamic copy loop of `updateTestimonial`:
`if (key in testimonial && key !== "user" && key !== "isApproved")` then
assign the value onto the record. -/
def TUpd.applyIfPresent (t : TestimonialRec) (k : TUpd) : TestimonialRec :=
  if testimonialSchemaKeys.contains k.key ∧ k.key ≠ "user" ∧
      k.key ≠ "isApproved" then
    match k with
    | .tname v => { t with name := v }
    | .tcontent v => { t with content := v }
    | .trating v => { t with rating := v }
    | .tavatar v => { t with avatar := v }
    | .tposition v => { t with position := v }
    | .tcompany v => { t with company := v }
    | .tisApproved _ => t
    | .tplatform _ => t
  else
    t

/-- `updateData.hasOwnProperty("isApproved")` plus the value read by
`Boolean(updateData.isApproved)`. -/
def isApprovedEntry (updateData : List TUpd) : Option Bool :=
  updateData.findSome? (fun k =>
    match k with
    | .tisApproved v => some v
    | _ => none)

/-- `testimonial.save()` over the testimonial collection. -/
def saveTestimonial (ts : List TestimonialRec) (t : TestimonialRec) :
    List TestimonialRec :=
  ts.map (fun v => if v.id == t.id then t else v)

/-- `TestimonialService.updateTestimonial`: not-found check, owner-or-admin
check, dynamic field copy, admin-only approval update, save. -/
def updateTestimonial (ts : List TestimonialRec) (testimonialId userId : Nat)
    (isAdmin : Bool) (updateData : List TUpd) :
    Except String (TestimonialRec × List TestimonialRec) :=
  match ts.find? (fun t => t.id == testimonialId) with
  | none => .error "Testimonial not found"
  | some testimonial =>
    if ¬ isAdmin ∧ testimonial.user ≠ userId then
      .error "Not authorized to update this testimonial"
    else
      let t₁ := updateData.foldl TUpd.applyIfPresent testimonial
      let t₂ :=
        if isAdmin then
          match isApprovedEntry updateData with
          | some v => { t₁ with isApproved := v }
          | none => t₁
        else t₁
      .ok (t₂, saveTestimonial ts t₂)

/-- Result of an Express middleware: either pass to the next handler or
answer with a status code. -/
inductive GateResult
  | next
  | forbidden
  deriving Repr, DecidableEq

/-- `adminOnly` of `middleware/authMiddleware.ts`:
`if (!req.user || !req.user.isAdmin) { 403 } else next()`.
The attached user is `none` when the auth middleware did not run. -/
def adminOnly (user : Option UserRec) : GateResult :=
  if (match user with
      | none => true
      | some u => ¬ u.isAdmin) then
    GateResult.forbidden
  else
    GateResult.next

/-- A JSON response sent by a controller: status code and `message` field.
The optional user body is modelled separately where a claim needs it. -/
structure HttpResponse where
  status : Nat
  message : String
  deriving Repr, DecidableEq

/-- JavaScript falsiness of an optional request-body string:
`undefined`/missing or the empty string. -/
def jsFalsy : Option String → Bool
  | none => true
  | some s => s == ""

/-- `user.toObject()` followed by `delete userResponse.password`, as built
by `UserController.register` and `UserController.adminUpdateUser`: every
persisted field except the deleted `password` key. -/
structure UserResponseBody where
  id : Nat
  email : String
  name : String
  picture : Option String
  provider : String
  providerId : Option String
  role : String
  isAdmin : Bool
  isVerified : Bool
  verificationToken : Option String
  resetPasswordToken : Option String
  resetPasswordExpires : Option Nat
  deriving Repr, DecidableEq

/-- The outward user object: `toObject()` minus `password` only — the
token fields are copied through unchanged. -/
def toObjectMinusPassword (u : UserRec) : UserResponseBody :=
  { id := u.id
    email := u.email
    name := u.name
    picture := u.picture
    provider := u.provider
    providerId := u.providerId
    role := u.role
    isAdmin := u.isAdmin
    isVerified := u.isVerified
    verificationToken := u.verificationToken
    resetPasswordToken := u.resetPasswordToken
    resetPasswordExpires := u.resetPasswordExpires }

/-- Observable events of a controller run: responses sent and service
invocations, in program order. -/
inductive ControllerEvent
  | responded (status : Nat) (message : String)
  | calledRegister (email name password : Option String)
  | calledLogin (email password : Option String)
  deriving Repr, DecidableEq

/-- The catch block of `UserController.register`: a 400 for the duplicate
email message (without `return`), then always the 500. -/
def registerCatchTrace (msg : String) : List ControllerEvent :=
  (if msg == "Email already in use" then
    [ControllerEvent.responded 400 msg]
  else []) ++
  [ControllerEvent.responded 500 "Server error during registration"]

/-- Event trace of `UserController.register`. The validation failure sends
a 400 but does not return, so the service call always follows; the
service's outcome (which for missing inputs depends on library behaviour
on `undefined`) is a parameter. -/
def registerControllerTrace (email name password : Option String)
    (serviceResult : Except String UserRec) : List ControllerEvent :=
  (if jsFalsy email || jsFalsy name || jsFalsy password then
    [ControllerEvent.responded 400 "Please provide all required fields"]
  else []) ++
  (ControllerEvent.calledRegister email name password ::
    match serviceResult with
    | .ok _ =>
      [ControllerEvent.responded 201
        "User registered successfully. Please check your email to verify your account."]
    | .error msg => registerCatchTrace msg)

/-- The catch block of `UserController.login`: a 400 for the recognised
domain errors (without `return`), then always the 500. -/
def loginCatchTrace (msg : String) : List ControllerEvent :=
  (if msg == "Invalid credentials" ||
      msg == "Please verify your email before logging in" ||
      msg.containsSubstr "Please login using your" then
    [ControllerEvent.responded 400 msg]
  else []) ++
  [ControllerEvent.responded 500 "Server error during login"]

/-- Event trace of `UserController.login`; same missing-guard shape as
registration. -/
def loginControllerTrace (email password : Option String)
    (serviceResult : Except String (UserRec × SignedToken)) :
    List ControllerEvent :=
  (if jsFalsy email || jsFalsy password then
    [ControllerEvent.responded 400 "Please provide email and password"]
  else []) ++
  (ControllerEvent.calledLogin email password ::
    match serviceResult with
    | .ok _ => [ControllerEvent.responded 200 "Login successful"]
    | .error msg => loginCatchTrace msg)

/-- The uniform body of the password-reset-request endpoint. -/
def resetRequestSuccessMessage : String :=
  "If your email exists in our system, you will receive a password reset link"

/-- `UserController.requestPasswordReset`: a 400 for a falsy email (without
`return`), then the service call; both the success path and the catch
block answer with the same 200 message. -/
def requestPasswordResetController (resetToken : String) (now : Nat)
    (store : Store) (email : Option String) : List HttpResponse × Store :=
  let validation : List HttpResponse :=
    if jsFalsy email then [⟨400, "Email is required"⟩] else []
  match requestPasswordReset resetToken now store (email.getD "") with
  | .ok (_, _, store') =>
    (validation ++ [⟨200, resetRequestSuccessMessage⟩], store')
  | .error _ =>
    (validation ++ [⟨200, resetRequestSuccessMessage⟩], store)

/-- The 201 payload user object of `UserController.register` for a freshly
created user. -/
def registerResponseUser (bc : Bcrypt) (verificationToken : String)
    (freshId : Nat) (store : Store) (userData : UserRegistrationData) :
    Option UserResponseBody :=
  match register bc verificationToken freshId store userData with
  | .ok (u, _) => some (toObjectMinusPassword u)
  | .error _ => none

/-- One state-changing call of the credential-store operations named by the
spec; randomness, time, ids and bcrypt are carried by the constructor. -/
inductive Op
  | opRegister (bc : Bcrypt) (vtok : String) (freshId : Nat)
      (d : UserRegistrationData)
  | opLogin (bc : Bcrypt) (email password : String)
  | opVerifyEmail (token : String)
  | opRequestPasswordReset (resetToken : String) (now : Nat) (email : String)
  | opResetPassword (bc : Bcrypt) (token newPassword : String) (now : Nat)
  | opOauthLogin (freshId : Nat) (profile : OAuthProfile)
      (provider : OAuthProvider)
  | opSetPasswordForOAuthUser (bc : Bcrypt) (userId : Nat) (password : String)

/-- Effect of one operation on the user collection; a thrown error leaves
the collection as it was (every write happens after the last throw). -/
def applyOp (store : Store) (op : Op) : Store :=
  match op with
  | .opRegister bc vtok freshId d =>
    match register bc vtok freshId store d with
    | .ok (_, s) => s
    | .error _ => store
  | .opLogin _ _ _ => store
  | .opVerifyEmail token =>
    match verifyEmail store token with
    | .ok (_, s) => s
    | .error _ => store
  | .opRequestPasswordReset resetToken now email =>
    match requestPasswordReset resetToken now store email with
    | .ok (_, _, s) => s
    | .error _ => store
  | .opResetPassword bc token newPassword now =>
    match resetPassword bc token newPassword now store with
    | .ok (_, s) => s
    | .error _ => store
  | .opOauthLogin freshId profile provider =>
    match oauthLogin freshId store profile provider with
    | .ok (_, _, s) => s
    | .error _ => store
  | .opSetPasswordForOAuthUser bc userId password =>
    match setPasswordForOAuthUser bc store userId password with
    | .ok (_, s) => s
    | .error _ => store

/-- One user satisfies the spec's exactly-one-authentication-mode claim:
password hash present XOR provider different from `local`. -/
def exactlyOneAuthMode (u : UserRec) : Bool :=
  u.password.isSome != (u.provider != "local")

/-- Every local account in the collection holds a password hash. -/
def localHasPassword (store : Store) : Bool :=
  store.all (fun u => u.provider != "local" || u.password.isSome)

/-! Concrete fixtures used by witnesses and counterexamples. -/

/-- A deterministic stand-in for bcrypt, injective on the inputs used. -/
def bc0 : Bcrypt :=
  { hash := fun p => "hashed:" ++ p
    compare := fun p h => h == "hashed:" ++ p }

/-- A verified local account holding the hash of password `pw1`. -/
def aliceLocal : UserRec :=
  { id := 1
    email := "alice@x.com"
    name := "Alice"
    picture := none
    provider := "local"
    providerId := none
    password := some "hashed:pw1"
    role := "user"
    isAdmin := false
    isVerified := true
    verificationToken := none
    resetPasswordToken := none
    resetPasswordExpires := none }

/-- A user whose role string is `admin` while the isAdmin flag is false. -/
def roleAdminUser : UserRec :=
  { id := 7
    email := "ops@x.com"
    name := "Ops"
    picture := none
    provider := "local"
    providerId := none
    password := some "hashed:ops"
    role := "admin"
    isAdmin := false
    isVerified := true
    verificationToken := none
    resetPasswordToken := none
    resetPasswordExpires := none }

/-- A plain registration request body. -/
def regData0 : UserRegistrationData :=
  { email := "a@x.com", name := "A", password := "pw", picture := none }

/-- The Google profile matching `regData0`'s email. -/
def profile0 : OAuthProfile :=
  { email := "a@x.com", id := "gid-1", name := "A", picture := none }

/-! Helper lemmas about `saveUser` and `find?`. -/

/-- Every element of `saveUser store w` is `w` or an element of `store`. -/
theorem mem_saveUser {store : Store} {w v : UserRec}
    (h : v ∈ saveUser store w) : v = w ∨ v ∈ store := by
  rcases List.mem_map.mp h with ⟨x, hx, hxe⟩
  by_cases hid : (x.id == w.id) = true
  · left
    rw [← hxe]
    simp [hid]
  · right
    rw [← hxe]
    simp only [hid]
    simpa using hx

/-- After writing back a record with the found user's id and email, the
email lookup returns the written record. -/
theorem findByEmail_saveUser {store : Store} {u u' : UserRec} {e : String}
    (hfind : findByEmail store e = some u)
    (hid : u'.id = u.id) (he : u'.email = u.email) :
    findByEmail (saveUser store u') e = some u' := by
  simp only [findByEmail] at hfind ⊢
  have hue : (u.email == e) = true := by
    have h := List.find?_some hfind
    simpa using h
  induction store with
  | nil => simp at hfind
  | cons w t ih =>
    rw [List.find?_cons_eq_some] at hfind
    simp only [saveUser, List.map_cons]
    rw [List.find?_cons_eq_some]
    by_cases hwid : (w.id == u'.id) = true
    · rw [if_pos hwid]
      left
      exact ⟨by simp [he, hue], rfl⟩
    · rw [if_neg hwid]
      rcases hfind with ⟨hpw, rfl⟩ | ⟨hnpw, hft⟩
      · exact absurd (by simp [hid]) hwid
      · right
        exact ⟨hnpw, ih hft⟩

/-- After writing back a record whose id is the found user's id, a lookup
for a predicate that the new record satisfies and every differently-keyed
record fails returns the written record. -/
theorem find?_saveUser_fresh {store : Store} {u u' : UserRec}
    {p : UserRec → Bool}
    (hmem : u ∈ store) (hid : u'.id = u.id) (hp : p u' = true)
    (hothers : ∀ v ∈ store, v.id ≠ u.id → p v = false) :
    (saveUser store u').find? p = some u' := by
  induction store with
  | nil => simp at hmem
  | cons w t ih =>
    simp only [saveUser, List.map_cons]
    rw [List.find?_cons_eq_some]
    by_cases hwid : (w.id == u'.id) = true
    · rw [if_pos hwid]
      left
      exact ⟨hp, rfl⟩
    · have hwne : w.id ≠ u.id := by
        rw [← hid]
        simpa using hwid
      rw [if_neg hwid]
      right
      have hpw : p w = false := hothers w (by simp) hwne
      have hmem' : u ∈ t := by
        rcases List.mem_cons.mp hmem with rfl | h
        · exact absurd rfl hwne
        · exact h
      exact ⟨by simp [hpw],
        ih hmem' (fun v hv hne => hothers v (List.mem_cons_of_mem _ hv) hne)⟩

/-- After writing back a record that fails a predicate, the lookup fails
when every record with a different id also fails it. -/
theorem find?_saveUser_none {store : Store} {w : UserRec}
    {p : UserRec → Bool}
    (hw : p w = false) (hall : ∀ v ∈ store, v.id ≠ w.id → p v = false) :
    (saveUser store w).find? p = none := by
  rw [List.find?_eq_none]
  intro x hx
  rcases List.mem_map.mp hx with ⟨y, hy, hye⟩
  by_cases hid : (y.id == w.id) = true
  · rw [← hye]
    simp [hid, hw]
  · rw [← hye]
    simp only [hid, if_false]
    simp [hall y hy (by simpa using hid)]

/-! Claim C5: the admin gate. -/

/-- C5 counterexample: a user whose role string is `admin` but whose
isAdmin flag is false is rejected by the admin gate with Forbidden, so the
gate does not honor the role string as a second admin indicator. -/
theorem adminOnly_rejects_role_admin :
    roleAdminUser.role = "admin" ∧ roleAdminUser.isAdmin = false ∧
      adminOnly (some roleAdminUser) = GateResult.forbidden :=
  ⟨rfl, rfl, rfl⟩

/-- C5 (amended): the admin gate consults only the isAdmin flag — it
passes the request on exactly when a user is attached whose isAdmin flag
is true, and answers Forbidden in every other case; the role string is
never consulted. -/
theorem adminOnly_grants_iff_isAdmin (user : Option UserRec) :
    adminOnly user = GateResult.next ↔
      ∃ u, user = some u ∧ u.isAdmin = true := by
  cases user with
  | none => simp [adminOnly]
  | some u =>
    by_cases h : u.isAdmin <;> simp [adminOnly, h]

/-- Closed instance of the amended admin-gate theorem: a flagged admin
passes the gate. -/
theorem adminOnly_grants_iff_isAdmin_witness :
    adminOnly (some { roleAdminUser with isAdmin := true }) =
      GateResult.next :=
  (adminOnly_grants_iff_isAdmin
    (some { roleAdminUser with isAdmin := true })).mpr
    ⟨{ roleAdminUser with isAdmin := true }, rfl, rfl⟩

/-! Claim C2: the login cascade. -/

/-- C2: login applies its checks in source order — unknown email gives
InvalidCredentials; a non-local provider gives the WrongProvider message
embedding the stored provider's name; a missing hash or a failed
bcrypt-compare gives InvalidCredentials; an unverified account gives the
NotVerified message; and on success the issued token carries exactly
userId, email, role and isAdmin with a one-day expiry. The password is
consulted only through the hashing library's compare function, which the
definition takes as a parameter. -/
theorem login_spec (bc : Bcrypt) (store : Store) (email password : String) :
    (findByEmail store email = none →
      login bc store email password = .error "Invalid credentials") ∧
    (∀ u, findByEmail store email = some u →
      (u.provider ≠ "local" →
        login bc store email password =
          .error ("Please login using your " ++ u.provider ++ " account")) ∧
      (u.provider = "local" → u.password = none →
        login bc store email password = .error "Invalid credentials") ∧
      (∀ h, u.provider = "local" → u.password = some h →
        bc.compare password h = false →
        login bc store email password = .error "Invalid credentials") ∧
      (∀ h, u.provider = "local" → u.password = some h →
        bc.compare password h = true → u.isVerified = false →
        login bc store email password =
          .error "Please verify your email before logging in") ∧
      (∀ h, u.provider = "local" → u.password = some h →
        bc.compare password h = true → u.isVerified = true →
        login bc store email password =
          .ok (u, { payload := { userId := u.id, email := u.email,
                                 role := u.role, isAdmin := u.isAdmin },
                    expiresIn := "1d" }))) := by
  constructor
  · intro hnone
    simp [login, hnone]
  · intro u hu
    refine ⟨?_, ?_, ?_, ?_, ?_⟩
    · intro hprov
      simp [login, hu, hprov]
    · intro hprov hpw
      simp [login, hu, hprov, hpw]
    · intro h hprov hpw hcmp
      simp [login, hu, hprov, hpw, hcmp]
    · intro h hprov hpw hcmp hvf
      simp [login, hu, hprov, hpw, hcmp, hvf]
    · intro h hprov hpw hcmp hvf
      simp [login, hu, hprov, hpw, hcmp, hvf, jwtSign, tokenPayloadOf]

/-- Closed instance of the login theorem: the successful branch on a
one-user store, with every hypothesis evaluated. -/
theorem login_spec_witness :
    login bc0 [aliceLocal] "alice@x.com" "pw1" =
      .ok (aliceLocal,
        { payload := { userId := 1, email := "alice@x.com",
                       role := "user", isAdmin := false },
          expiresIn := "1d" }) :=
  ((login_spec bc0 [aliceLocal] "alice@x.com" "pw1").2 aliceLocal
    (by decide)).2.2.2.2 "hashed:pw1" (by decide) (by decide) (by decide)
    (by decide)

/-! Claim C10: the profile-update frame. -/

/-- Equality of every user field other than name and picture. -/
def sensitiveFieldsEq (a b : UserRec) : Prop :=
  a.id = b.id ∧ a.email = b.email ∧ a.provider = b.provider ∧
  a.providerId = b.providerId ∧ a.password = b.password ∧ a.role = b.role ∧
  a.isAdmin = b.isAdmin ∧ a.isVerified = b.isVerified ∧
  a.verificationToken = b.verificationToken ∧
  a.resetPasswordToken = b.resetPasswordToken ∧
  a.resetPasswordExpires = b.resetPasswordExpires

theorem sensitiveFieldsEq_refl (a : UserRec) : sensitiveFieldsEq a a :=
  ⟨rfl, rfl, rfl, rfl, rfl, rfl, rfl, rfl, rfl, rfl, rfl⟩

theorem sensitiveFieldsEq_trans {a b c : UserRec}
    (h₁ : sensitiveFieldsEq a b) (h₂ : sensitiveFieldsEq b c) :
    sensitiveFieldsEq a c := by
  obtain ⟨e1, e2, e3, e4, e5, e6, e7, e8, e9, e10, e11⟩ := h₁
  obtain ⟨f1, f2, f3, f4, f5, f6, f7, f8, f9, f10, f11⟩ := h₂
  exact ⟨e1.trans f1, e2.trans f2, e3.trans f3, e4.trans f4, e5.trans f5,
    e6.trans f6, e7.trans f7, e8.trans f8, e9.trans f9, e10.trans f10,
    e11.trans f11⟩

/-- An allow-listed assignment can only touch name or picture. -/
theorem apply_allowed_sensitive (u : UserRec) (k : UserUpd)
    (hk : allowedUpdates.contains k.key = true) :
    sensitiveFieldsEq (UserUpd.apply u k) u := by
  cases k
  case uname v => exact sensitiveFieldsEq_refl _
  case upicture v => exact sensitiveFieldsEq_refl _
  all_goals simp [allowedUpdates, UserUpd.key] at hk

/-- Folding allow-listed assignments can only touch name or picture. -/
theorem foldl_apply_sensitive (l : List UserUpd) (u : UserRec)
    (hl : ∀ k ∈ l, allowedUpdates.contains k.key = true) :
    sensitiveFieldsEq (l.foldl UserUpd.apply u) u := by
  induction l generalizing u with
  | nil => exact sensitiveFieldsEq_refl u
  | cons k t ih =>
    simp only [List.foldl_cons]
    exact sensitiveFieldsEq_trans
      (ih (UserUpd.apply u k) (fun x hx => hl x (List.mem_cons_of_mem _ hx)))
      (apply_allowed_sensitive u k (hl k (by simp)))

/-- C10: updateProfile cannot touch privileged or identity fields — for
every call, the stored record can change only in name and picture; every
other key of the payload (email, provider, role, isAdmin, isVerified,
password, token fields) is dropped by the allow-list, and an unknown user
id gives the not-found error. -/
theorem updateProfile_frame (store : Store) (userId : Nat)
    (updateData : List UserUpd) :
    (findById store userId = none →
      updateProfile store userId updateData = .error "User not found") ∧
    (∀ u, findById store userId = some u →
      ∃ u', updateProfile store userId updateData =
          .ok (u', saveUser store u') ∧
        sensitiveFieldsEq u' u) := by
  constructor
  · intro h
    simp [updateProfile, h]
  · intro u hu
    refine ⟨(updateData.filter fun k =>
      allowedUpdates.contains k.key).foldl UserUpd.apply u, ?_, ?_⟩
    · simp [updateProfile, hu]
    · exact foldl_apply_sensitive _ u (fun k hk => (List.mem_filter.mp hk).2)

/-- Closed instance of the profile-update frame: a payload smuggling a
role change leaves everything but name and picture as it was. -/
theorem updateProfile_frame_witness :
    ∃ u', updateProfile [aliceLocal] 1
        [UserUpd.uname "Mallory", UserUpd.urole "admin"] =
      .ok (u', saveUser [aliceLocal] u') ∧ sensitiveFieldsEq u' aliceLocal :=
  (updateProfile_frame [aliceLocal] 1
    [UserUpd.uname "Mallory", UserUpd.urole "admin"]).2 aliceLocal (by decide)

/-! Claim C9: missing early returns after validation failures. -/

/-- C9: in the registration and login controllers the 400 validation
response is sent without a return, so the service operation is still
invoked with the missing input — the trace shows the 400 response followed
by the service call. -/
theorem validation_gap_still_calls_service
    (email name password : Option String)
    (regResult : Except String UserRec)
    (loginResult : Except String (UserRec × SignedToken))
    (hreg : (jsFalsy email || jsFalsy name || jsFalsy password) = true)
    (hlogin : (jsFalsy email || jsFalsy password) = true) :
    (∃ rest, registerControllerTrace email name password regResult =
      ControllerEvent.responded 400 "Please provide all required fields" ::
        ControllerEvent.calledRegister email name password :: rest) ∧
    (∃ rest, loginControllerTrace email password loginResult =
      ControllerEvent.responded 400 "Please provide email and password" ::
        ControllerEvent.calledLogin email password :: rest) := by
  constructor
  · refine ⟨(match regResult with
      | .ok _ => [ControllerEvent.responded 201
          "User registered successfully. Please check your email to verify your account."]
      | .error msg => registerCatchTrace msg), ?_⟩
    simp [registerControllerTrace, hreg]
  · refine ⟨(match loginResult with
      | .ok _ => [ControllerEvent.responded 200 "Login successful"]
      | .error msg => loginCatchTrace msg), ?_⟩
    simp [loginControllerTrace, hlogin]

/-- Closed instance of the validation-gap theorem: a registration request
with no email and no password still reaches the register service after
the 400. -/
theorem validation_gap_still_calls_service_witness :
    ∃ rest, registerControllerTrace none (some "A") none
        (Except.error "boom") =
      ControllerEvent.responded 400 "Please provide all required fields" ::
        ControllerEvent.calledRegister none (some "A") none :: rest :=
  (validation_gap_still_calls_service none (some "A") none
    (Except.error "boom") (Except.error "boom2") (by decide) (by decide)).1

/-! Claim C6: enumeration safety of the password-reset request. -/

/-- C6: the password-reset-request endpoint answers with the same
success-shaped 200 message whether or not the email exists, and the
service's internal UserNotFound failure never reaches the response. -/
theorem reset_request_enumeration_safe (store : Store)
    (e1 e2 tok1 tok2 : String) (now1 now2 : Nat)
    (h1 : (findByEmail store e1).isSome = true)
    (h2 : findByEmail store e2 = none)
    (he1 : e1 ≠ "") (he2 : e2 ≠ "") :
    (requestPasswordResetController tok1 now1 store (some e1)).1 =
      [⟨200, resetRequestSuccessMessage⟩] ∧
    (requestPasswordResetController tok2 now2 store (some e2)).1 =
      [⟨200, resetRequestSuccessMessage⟩] ∧
    (requestPasswordResetController tok1 now1 store (some e1)).1 =
      (requestPasswordResetController tok2 now2 store (some e2)).1 := by
  obtain ⟨u, hu⟩ := Option.isSome_iff_exists.mp h1
  have hf1 : (e1 == "") = false := by simpa using he1
  have hf2 : (e2 == "") = false := by simpa using he2
  have g1 : (requestPasswordResetController tok1 now1 store (some e1)).1 =
      [⟨200, resetRequestSuccessMessage⟩] := by
    simp [requestPasswordResetController, jsFalsy, hf1,
      requestPasswordReset, hu]
  have g2 : (requestPasswordResetController tok2 now2 store (some e2)).1 =
      [⟨200, resetRequestSuccessMessage⟩] := by
    simp [requestPasswordResetController, jsFalsy, hf2,
      requestPasswordReset, h2]
  exact ⟨g1, g2, g1.trans g2.symm⟩

/-- Closed instance of the enumeration-safety theorem on a one-user
store: a hit and a miss produce the identical 200 response. -/
theorem reset_request_enumeration_safe_witness :
    (requestPasswordResetController "t1" 5 [aliceLocal]
        (some "alice@x.com")).1 =
      (requestPasswordResetController "t2" 9 [aliceLocal]
        (some "nobody@x.com")).1 :=
  (reset_request_enumeration_safe [aliceLocal] "alice@x.com" "nobody@x.com"
    "t1" "t2" 5 9 (by decide) (by decide) (by decide) (by decide)).2.2

/-! Claim C4: secret material in outward payloads. -/

/-- C4 is violated by the code: the 201 registration response's user
object still carries the freshly generated verification token, because
only the password key is deleted from `toObject()`. -/
theorem register_response_contains_verification_token :
    ∃ body, registerResponseUser bc0 "vtok0" 1 [] regData0 = some body ∧
      body.verificationToken = some "vtok0" :=
  ⟨toObjectMinusPassword
    { id := 1, email := "a@x.com", name := "A", picture := none,
      provider := "local", providerId := none,
      password := some "hashed:pw", role := "user", isAdmin := false,
      isVerified := false, verificationToken := some "vtok0",
      resetPasswordToken := none, resetPasswordExpires := none },
    by decide, by decide⟩

/-! Claim C8: the testimonial-update contract. -/

/-- One step of the dynamic copy never touches id, owner or approval. -/
theorem applyIfPresent_frame (t : TestimonialRec) (k : TUpd) :
    (TUpd.applyIfPresent t k).id = t.id ∧
    (TUpd.applyIfPresent t k).user = t.user ∧
    (TUpd.applyIfPresent t k).isApproved = t.isApproved := by
  cases k <;>
    simp [TUpd.applyIfPresent, TUpd.key, testimonialSchemaKeys]

/-- The whole dynamic copy never touches id, owner or approval. -/
theorem foldl_applyIfPresent_frame (l : List TUpd) (t : TestimonialRec) :
    (l.foldl TUpd.applyIfPresent t).id = t.id ∧
    (l.foldl TUpd.applyIfPresent t).user = t.user ∧
    (l.foldl TUpd.applyIfPresent t).isApproved = t.isApproved := by
  induction l generalizing t with
  | nil => exact ⟨rfl, rfl, rfl⟩
  | cons k kt ih =>
    simp only [List.foldl_cons]
    obtain ⟨h1, h2, h3⟩ := ih (TUpd.applyIfPresent t k)
    obtain ⟨g1, g2, g3⟩ := applyIfPresent_frame t k
    exact ⟨h1.trans g1, h2.trans g2, h3.trans g3⟩

/-- C8: updating a testimonial fails with NotFound when the id does not
resolve; fails with the Forbidden message when the caller is neither the
owner nor an admin (leaving the collection untouched, as the error is
thrown before any save); and for the owner who is not an admin, whatever
keys the payload contains, the saved record keeps its id, its owning user
and its isApproved flag — only the content fields can change. -/
theorem updateTestimonial_spec (ts : List TestimonialRec)
    (testimonialId userId : Nat) (isAdmin : Bool) (updateData : List TUpd) :
    (ts.find? (fun t => t.id == testimonialId) = none →
      updateTestimonial ts testimonialId userId isAdmin updateData =
        .error "Testimonial not found") ∧
    (∀ t, ts.find? (fun t => t.id == testimonialId) = some t →
      (isAdmin = false → t.user ≠ userId →
        updateTestimonial ts testimonialId userId isAdmin updateData =
          .error "Not authorized to update this testimonial") ∧
      (isAdmin = false → t.user = userId →
        ∃ t', updateTestimonial ts testimonialId userId isAdmin updateData =
            .ok (t', saveTestimonial ts t') ∧
          t'.isApproved = t.isApproved ∧ t'.user = t.user ∧
          t'.id = t.id)) := by
  constructor
  · intro hnone
    simp [updateTestimonial, hnone]
  · intro t ht
    constructor
    · intro hadm hne
      simp [updateTestimonial, ht, hadm, hne]
    · intro hadm hown
      refine ⟨updateData.foldl TUpd.applyIfPresent t, ?_, ?_, ?_, ?_⟩
      · simp [updateTestimonial, ht, hadm, hown]
      · exact (foldl_applyIfPresent_frame updateData t).2.2
      · exact (foldl_applyIfPresent_frame updateData t).2.1
      · exact (foldl_applyIfPresent_frame updateData t).1

/-- A testimonial owned by user 1, not yet approved. -/
def tRec0 : TestimonialRec :=
  { id := 10
    user := 1
    name := "A"
    avatar := none
    content := "Nice"
    rating := 5
    isApproved := false
    position := none
    company := none }

/-- Closed instance of the testimonial-update theorem: the owner smuggling
an isApproved key changes content but not approval, owner or id. -/
theorem updateTestimonial_spec_witness :
    ∃ t', updateTestimonial [tRec0] 10 1 false
        [TUpd.tisApproved true, TUpd.tcontent "Changed"] =
      .ok (t', saveTestimonial [tRec0] t') ∧
      t'.isApproved = tRec0.isApproved ∧ t'.user = tRec0.user ∧
      t'.id = tRec0.id :=
  ((updateTestimonial_spec [tRec0] 10 1 false
    [TUpd.tisApproved true, TUpd.tcontent "Changed"]).2 tRec0
    (by decide)).2 rfl rfl

/-! Claim C3: the authentication-mode invariant. -/

/-- Writing back a record that satisfies the local-implies-password
predicate preserves the invariant. -/
theorem localHasPassword_saveUser {store : Store} {u' : UserRec}
    (h : localHasPassword store = true)
    (hu : (u'.provider != "local" || u'.password.isSome) = true) :
    localHasPassword (saveUser store u') = true := by
  rw [localHasPassword, List.all_eq_true]
  intro x hx
  rcases mem_saveUser hx with rfl | hx'
  · exact hu
  · rw [localHasPassword, List.all_eq_true] at h
    exact h x hx'

/-- A member of an invariant-satisfying store satisfies the predicate. -/
theorem localHasPassword_mem {store : Store} {u : UserRec}
    (h : localHasPassword store = true) (hu : u ∈ store) :
    (u.provider != "local" || u.password.isSome) = true := by
  rw [localHasPassword, List.all_eq_true] at h
  exact h u hu

/-- Appending a record that satisfies the local-implies-password predicate
preserves the invariant. -/
theorem localHasPassword_append_one {store : Store} {u : UserRec}
    (h : localHasPassword store = true)
    (hu : (u.provider != "local" || u.password.isSome) = true) :
    localHasPassword (store ++ [u]) = true := by
  rw [localHasPassword, List.all_eq_true]
  intro x hx
  rcases List.mem_append.mp hx with hx' | hx'
  · rw [localHasPassword, List.all_eq_true] at h
    exact h x hx'
  · rw [List.mem_singleton.mp hx']
    exact hu

/-- Each credential-store operation preserves the invariant that every
local account holds a password hash. -/
theorem localHasPassword_applyOp (store : Store) (op : Op)
    (h : localHasPassword store = true) :
    localHasPassword (applyOp store op) = true := by
  cases op with
  | opRegister bc vtok freshId d =>
    simp only [applyOp, register]
    cases hfe : findByEmail store d.email
    case none => simpa using localHasPassword_append_one h (by simp)
    case some w => simpa using h
  | opLogin bc email password => exact h
  | opVerifyEmail token =>
    simp only [applyOp, verifyEmail]
    cases hfd : store.find? (fun v => v.verificationToken == some token)
    case none => simpa using h
    case some w =>
      have hw := localHasPassword_mem h (List.mem_of_find?_eq_some hfd)
      simpa using localHasPassword_saveUser h (by simpa using hw)
  | opRequestPasswordReset resetToken now email =>
    simp only [applyOp, requestPasswordReset]
    cases hfe : findByEmail store email
    case none => simpa using h
    case some w =>
      have hw := localHasPassword_mem h (List.mem_of_find?_eq_some hfe)
      simpa using localHasPassword_saveUser h (by simpa using hw)
  | opResetPassword bc token newPassword now =>
    simp only [applyOp, resetPassword]
    cases hfd : store.find? (resetMatches token now)
    case none => simpa using h
    case some w => simpa using localHasPassword_saveUser h (by simp)
  | opOauthLogin freshId profile provider =>
    simp only [applyOp, oauthLogin]
    cases hfe : findByEmail store profile.email
    case none =>
      simpa using localHasPassword_append_one h
        (by cases provider <;> simp [OAuthProvider.str])
    case some w =>
      by_cases hpr : w.provider ≠ provider.str
      · by_cases hloc : w.provider = "local" ∧ w.isVerified = false
        · simp only [if_pos hpr, if_pos hloc]
          simpa using localHasPassword_saveUser h
            (by cases provider <;> simp [OAuthProvider.str])
        · simp only [if_pos hpr, if_neg hloc]
          simpa using h
      · simp only [if_neg hpr]
        simpa using h
  | opSetPasswordForOAuthUser bc userId password =>
    simp only [applyOp, setPasswordForOAuthUser]
    cases hfd : findById store userId
    case none => simpa using h
    case some w =>
      cases hpw : w.password
      case none =>
        simp only [hpw]
        exact localHasPassword_saveUser h (by simp)
      case some pw =>
        simp only [hpw]
        simpa using h

/-- C3 (amended): after any sequence of the spec's credential-store
operations starting from the empty store, every account whose provider is
`local` holds a password hash. The converse direction of the claimed
exactly-one invariant fails (see the counterexample): a non-local account
can hold a hash, because local-to-OAuth migration keeps the old hash and
setPasswordForOAuthUser adds one. -/
theorem local_accounts_always_have_password (ops : List Op) :
    localHasPassword (ops.foldl applyOp []) = true := by
  suffices hstep : ∀ s, localHasPassword s = true →
      localHasPassword (ops.foldl applyOp s) = true by
    exact hstep [] rfl
  induction ops with
  | nil => exact fun s hs => hs
  | cons op t ih =>
    intro s hs
    exact ih (applyOp s op) (localHasPassword_applyOp s op hs)

/-- Closed instance of the amended invariant after a register followed by
an OAuth migration. -/
theorem local_accounts_always_have_password_witness :
    localHasPassword
      ([Op.opRegister bc0 "vtok0" 1 regData0,
        Op.opOauthLogin 2 profile0 OAuthProvider.google].foldl applyOp []) =
      true :=
  local_accounts_always_have_password
    [Op.opRegister bc0 "vtok0" 1 regData0,
     Op.opOauthLogin 2 profile0 OAuthProvider.google]

/-- C3 counterexample: after registering a local account and then
resolving the same email through Google OAuth, the migrated record has
provider google while still holding the old password hash — both sides of
the claimed exclusive-or hold at once, so the exactly-one invariant is
false on the code. -/
theorem auth_mode_xor_fails_after_migration :
    ∃ u ∈ ([Op.opRegister bc0 "vtok0" 1 regData0,
        Op.opOauthLogin 2 profile0 OAuthProvider.google].foldl applyOp []),
      u.provider = "google" ∧ u.password = some "hashed:pw" ∧
        exactlyOneAuthMode u = false := by
  decide

/-! Claim C1: OAuth resolution. -/

/-- The user record created by oauthLogin when the email is unknown. -/
def createdOAuthUser (freshId : Nat) (profile : OAuthProfile)
    (provider : OAuthProvider) : UserRec :=
  { id := freshId
    email := profile.email
    name := profile.name
    picture := profile.picture
    provider := provider.str
    providerId := some profile.id
    password := none
    role := "user"
    isAdmin := false
    isVerified := true
    verificationToken := none
    resetPasswordToken := none
    resetPasswordExpires := none }

/-- The record produced by the unverified-local migration branch:
provider and providerId overwritten, isVerified set, verification token
cleared, every other field (the password hash included) untouched. -/
def migratedUser (u : UserRec) (profile : OAuthProfile)
    (provider : OAuthProvider) : UserRec :=
  { u with
    provider := provider.str
    providerId := some profile.id
    isVerified := true
    verificationToken := none }

/-- Appending a fresh record after a failed lookup makes it findable. -/
theorem findByEmail_append_of_none {store : Store} {u : UserRec}
    {e : String} (hfe : findByEmail store e = none) (hu : u.email = e) :
    findByEmail (store ++ [u]) e = some u := by
  rw [findByEmail] at hfe ⊢
  rw [List.find?_append, hfe]
  simp [hu]

/-- C1: one theorem for the four OAuth-resolution branches plus
idempotence. When no user has the email, a user with the given provider,
providerId and isVerified true is created and appended; when the found
user's provider equals the incoming provider, nothing is mutated and the
same user is returned; when the found user is an unverified local account
it is migrated in place (provider/providerId overwritten, isVerified set,
verification token cleared); in every other mismatch the call fails with
the conflict message carrying the existing provider's name; and any
successful call is idempotent — repeating it returns the same user and
token and leaves the store unchanged. -/
theorem oauthLogin_spec (freshId : Nat) (store : Store)
    (profile : OAuthProfile) (provider : OAuthProvider) :
    (findByEmail store profile.email = none →
      oauthLogin freshId store profile provider =
        .ok (createdOAuthUser freshId profile provider,
          jwtSign (tokenPayloadOf (createdOAuthUser freshId profile provider)),
          store ++ [createdOAuthUser freshId profile provider]) ∧
      (createdOAuthUser freshId profile provider).provider = provider.str ∧
      (createdOAuthUser freshId profile provider).providerId =
        some profile.id ∧
      (createdOAuthUser freshId profile provider).isVerified = true) ∧
    (∀ u, findByEmail store profile.email = some u →
      (u.provider = provider.str →
        oauthLogin freshId store profile provider =
          .ok (u, jwtSign (tokenPayloadOf u), store)) ∧
      (u.provider = "local" → u.isVerified = false →
        oauthLogin freshId store profile provider =
          .ok (migratedUser u profile provider,
            jwtSign (tokenPayloadOf (migratedUser u profile provider)),
            saveUser store (migratedUser u profile provider))) ∧
      (u.provider ≠ provider.str →
        ¬ (u.provider = "local" ∧ u.isVerified = false) →
        oauthLogin freshId store profile provider =
          .error ("You already have an account with " ++ u.provider ++
            ". Please sign in with that provider."))) ∧
    (∀ u tok s₁ freshId2,
      oauthLogin freshId store profile provider = .ok (u, tok, s₁) →
      oauthLogin freshId2 s₁ profile provider = .ok (u, tok, s₁)) := by
  refine ⟨?_, ?_, ?_⟩
  · intro hnone
    refine ⟨?_, rfl, rfl, rfl⟩
    simp [oauthLogin, hnone, createdOAuthUser]
  · intro u hu
    refine ⟨?_, ?_, ?_⟩
    · intro hpr
      simp [oauthLogin, hu, hpr]
    · intro hloc hnv
      have hne : u.provider ≠ provider.str := by
        rw [hloc]
        cases provider <;> simp [OAuthProvider.str]
      simp only [oauthLogin, hu]
      rw [if_pos hne, if_pos ⟨hloc, hnv⟩]
      rfl
    · intro hpr hnloc
      simp only [oauthLogin, hu]
      rw [if_pos hpr, if_neg hnloc]
  · intro u tok s₁ freshId2 hok
    cases hfe : findByEmail store profile.email
    case none =>
      simp only [oauthLogin, hfe, Except.ok.injEq, Prod.mk.injEq] at hok
      obtain ⟨h1, h2, h3⟩ := hok
      subst h1
      subst h2
      subst h3
      have hfind := @findByEmail_append_of_none store
        (createdOAuthUser freshId profile provider) profile.email hfe rfl
      simp only [createdOAuthUser] at hfind
      simp only [oauthLogin, hfind]
      rw [if_neg (by simp)]
    case some w =>
      simp only [oauthLogin, hfe] at hok
      by_cases hpr : w.provider ≠ provider.str
      · rw [if_pos hpr] at hok
        by_cases hloc : w.provider = "local" ∧ w.isVerified = false
        · rw [if_pos hloc] at hok
          simp only [Except.ok.injEq, Prod.mk.injEq] at hok
          obtain ⟨h1, h2, h3⟩ := hok
          subst h1
          subst h2
          subst h3
          have hfind := @findByEmail_saveUser store w
            (migratedUser w profile provider) profile.email hfe rfl rfl
          simp only [migratedUser] at hfind
          simp only [oauthLogin, hfind]
          rw [if_neg (by simp)]
        · rw [if_neg hloc] at hok
          simp at hok
      · rw [if_neg hpr] at hok
        simp only [Except.ok.injEq, Prod.mk.injEq] at hok
        obtain ⟨h1, h2, h3⟩ := hok
        subst h1
        subst h2
        subst h3
        simp only [oauthLogin, hfe]
        rw [if_neg hpr]

/-- Closed instance of the OAuth-resolution theorem: resolving an unknown
email creates the verified Google-backed user. -/
theorem oauthLogin_spec_witness :
    oauthLogin 5 [] profile0 OAuthProvider.google =
      .ok (createdOAuthUser 5 profile0 OAuthProvider.google,
        jwtSign (tokenPayloadOf (createdOAuthUser 5 profile0
          OAuthProvider.google)),
        [] ++ [createdOAuthUser 5 profile0 OAuthProvider.google]) :=
  ((oauthLogin_spec 5 [] profile0 OAuthProvider.google).1 (by decide)).1

/-! Claim C7: the password-reset round trip. -/

/-- The reset query matches exactly a stored equal token whose expiry is
still in the future. -/
theorem resetMatches_iff {t : String} {n : Nat} {v : UserRec} :
    resetMatches t n v = true ↔
      v.resetPasswordToken = some t ∧
        ∃ e, v.resetPasswordExpires = some e ∧ n < e := by
  rw [resetMatches]
  cases hx : v.resetPasswordExpires <;> simp [hx]

/-- C7: requestPasswordReset stores the supplied fresh token with expiry
now + one hour (3600000 ms); resetPassword succeeds exactly when some
user's stored reset token equals the given token and its expiry is still
in the future, and fails with the invalid-or-expired error otherwise; on
success the new password is hashed and stored and both reset fields are
cleared, so a second resetPassword with the same token fails. -/
theorem password_reset_round_trip (bc : Bcrypt) (store : Store)
    (email tok npw : String) (now : Nat) (u : UserRec)
    (hfind : findByEmail store email = some u)
    (hfresh : ∀ v ∈ store, v.resetPasswordToken ≠ some tok) :
    (∀ (s : Store) (t np : String) (n : Nat),
      (∃ w, resetPassword bc t np n s = .ok w) ↔
        ∃ v ∈ s, v.resetPasswordToken = some t ∧
          ∃ e, v.resetPasswordExpires = some e ∧ n < e) ∧
    ∃ store₁,
      requestPasswordReset tok now store email =
        .ok ({ u with resetPasswordToken := some tok,
                      resetPasswordExpires := some (now + 3600000) }, tok,
             store₁) ∧
      (∀ now2, now2 < now + 3600000 →
        ∃ store₂,
          resetPassword bc tok npw now2 store₁ =
            .ok ({ u with
                    password := some (bc.hash npw),
                    resetPasswordToken := none,
                    resetPasswordExpires := none }, store₂) ∧
          ∀ npw2 now3, resetPassword bc tok npw2 now3 store₂ =
            .error "Invalid or expired reset token") ∧
      (∀ now2, ¬ now2 < now + 3600000 →
        resetPassword bc tok npw now2 store₁ =
          .error "Invalid or expired reset token") := by
  have hmem : u ∈ store := by
    apply List.mem_of_find?_eq_some
    rw [findByEmail] at hfind
    exact hfind
  constructor
  · intro s t np n
    constructor
    · rintro ⟨w, hw⟩
      rw [resetPassword] at hw
      cases hfd : s.find? (resetMatches t n) <;> simp only [hfd] at hw
      · simp at hw
      · case some v =>
          have hv := List.find?_some hfd
          exact ⟨v, List.mem_of_find?_eq_some hfd, resetMatches_iff.mp hv⟩
    · rintro ⟨v, hv, hmatch⟩
      cases hfd : s.find? (resetMatches t n)
      · rw [List.find?_eq_none] at hfd
        exact absurd (resetMatches_iff.mpr hmatch) (by simpa using hfd v hv)
      · case some w =>
          refine ⟨({ w with
              password := some (bc.hash np),
              resetPasswordToken := none,
              resetPasswordExpires := none },
            saveUser s { w with
              password := some (bc.hash np),
              resetPasswordToken := none,
              resetPasswordExpires := none }), ?_⟩
          simp only [resetPassword, hfd]
  · refine ⟨saveUser store { u with
      resetPasswordToken := some tok,
      resetPasswordExpires := some (now + 3600000) }, ?_, ?_, ?_⟩
    · simp [requestPasswordReset, hfind]
    · intro now2 h2
      have hfd1 : (saveUser store { u with
          resetPasswordToken := some tok,
          resetPasswordExpires := some (now + 3600000) }).find?
            (resetMatches tok now2) =
          some { u with
            resetPasswordToken := some tok,
            resetPasswordExpires := some (now + 3600000) } := by
        refine @find?_saveUser_fresh store u _ (resetMatches tok now2)
          hmem rfl ?_ ?_
        · simp [resetMatches, h2]
        · intro v hv hne
          have hv' := hfresh v hv
          simp [resetMatches, hv']
      refine ⟨saveUser (saveUser store { u with
          resetPasswordToken := some tok,
          resetPasswordExpires := some (now + 3600000) })
        { u with
          password := some (bc.hash npw),
          resetPasswordToken := none,
          resetPasswordExpires := none }, ?_, ?_⟩
      · simp only [resetPassword, hfd1]
      · intro npw2 now3
        have hnone : (saveUser (saveUser store
            { u with
              resetPasswordToken := some tok,
              resetPasswordExpires := some (now + 3600000) })
            { u with
              password := some (bc.hash npw),
              resetPasswordToken := none,
              resetPasswordExpires := none }).find?
              (resetMatches tok now3) = none := by
          apply find?_saveUser_none
          · simp [resetMatches]
          · intro v hv hne
            rcases mem_saveUser hv with rfl | hv'
            · simp at hne
            · have hv'' := hfresh v hv'
              simp [resetMatches, hv'']
        simp only [resetPassword, hnone]
    · intro now2 h2
      have hnone1 : (saveUser store
          { u with
            resetPasswordToken := some tok,
            resetPasswordExpires := some (now + 3600000) }).find?
            (resetMatches tok now2) = none := by
        apply find?_saveUser_none
        · simp [resetMatches, h2]
        · intro v hv hne
          have hv' := hfresh v hv
          simp [resetMatches, hv']
      simp only [resetPassword, hnone1]

/-- Closed instance of the round-trip theorem: after a reset request at
time 0 for the one stored user, the token-and-expiry record is stored. -/
theorem password_reset_round_trip_witness :
    ∃ store₁, requestPasswordReset "rtok" 0 [aliceLocal] "alice@x.com" =
      .ok ({ aliceLocal with resetPasswordToken := some "rtok",
                             resetPasswordExpires := some 3600000 },
        "rtok", store₁) := by
  obtain ⟨-, store₁, h, -⟩ := password_reset_round_trip bc0 [aliceLocal]
    "alice@x.com" "rtok" "npw" 0 aliceLocal (by decide) (by decide)
  exact ⟨store₁, h⟩

end CvsCentral
